import Mathlib

/-!
Verification of the task-management backend (jmoloko/taskmange).

Shallow embedding of the Go sources:
- internal/domain/models/task.go          (Task, TaskFilters, Analytics)
- internal/repository/postgres task repo  (Create/Update/Delete/GetByID/GetAll)
- internal/cache/redis.go                 (analytics cache)
- internal/service task service           (ownership guard, partial update,
                                           analytics computation, import/export)
- internal/worker background worker       (expiry sweep, analytics refresh)
- internal/handler/task.go                (HTTP status mapping)

Modelling conventions:
- Go time.Time is modelled as seconds on an integer axis (`Time := Int`);
  the Go zero time value corresponds to 0, `IsZero` to `= 0`.
- Go float64 aggregates are modelled as rationals (`Rat`).
- Fallible calls return `Except`; a database or cache that is unreachable is
  modelled by a `healthy` flag on the corresponding state.
- Go maps used as counters are modelled by their lookup function with
  default 0; Go map iteration order is unspecified, so where the code
  collects map keys into a slice only membership is meaningful.
-/

namespace TaskMange

/-- Go time.Time as seconds on an integer time axis; the zero value is 0. -/
abbrev Time := Int

def secondsPerHour : Int := 3600

def secondsPerDay : Int := 86400

/-- The calendar day of a timestamp (SQL `::date` cast), as a floor division. -/
def dayOf (t : Time) : Int := Int.ediv t secondsPerDay

/-- models.Status constants (models.Status is a Go string type). -/
def StatusPending : String := "pending"

def StatusInProgress : String := "in_progress"

def StatusDone : String := "done"

/-- models.Priority constants (models.Priority is a Go string type). -/
def PriorityLow : String := "low"

def PriorityMedium : String := "medium"

def PriorityHigh : String := "high"

/-- internal/domain/models/task.go: Task. -/
structure Task where
  id : String
  title : String
  description : String
  status : String
  priority : String
  userID : String
  dueDate : Time
  createdAt : Time
  updatedAt : Time
  completedAt : Option Time
  deriving Repr, DecidableEq

/-- internal/domain/models/task.go: TaskFilters. -/
structure TaskFilters where
  status : String
  priority : String
  dueDate : Option Time
  userID : String
  search : String
  deriving Repr, DecidableEq

/-- The Go zero value of TaskFilters (models.TaskFilters with no field set). -/
def emptyFilters : TaskFilters :=
  { status := "", priority := "", dueDate := none, userID := "", search := "" }

/-- internal/domain/models/task.go: Analytics. Count maps are modelled by
their lookup functions; float64 fields by rationals. -/
structure Analytics where
  statusCount : String → Nat
  priorityCount : String → Nat
  avgCompletionTime : Rat
  onTimeCompletionRate : Rat
  overdueTasks : Nat
  period : String
  generatedAt : Time

/-- internal/domain/repository/repository.go: CachedAnalytics. -/
structure CachedAnalytics where
  userID : String
  period : String
  analytics : Analytics
  cachedAt : Time

/-- Errors of the postgres task repository: `notFound` is sql.ErrNoRows /
zero rows affected, `failure` is any other database error (unreachable
store, constraint violation, scan error, ...). -/
inductive RepoErr
  | notFound
  | failure
  deriving Repr, DecidableEq

/-- The task table plus a health flag; `healthy = false` models a database
whose every query fails with a non-ErrNoRows error. -/
structure RepoState where
  tasks : List Task
  healthy : Bool
  deriving Repr, DecidableEq

/-- Row lookup by primary key (SELECT ... WHERE id = $1 takes the matching
row; ids are the primary key, so at most one row matches in practice and we
take the first). -/
def findTask (tasks : List Task) (id : String) : Option Task :=
  tasks.find? (fun t => t.id == id)

/-- postgres TaskRepository.GetByID: sql.ErrNoRows becomes `notFound`,
any other error `failure`. -/
def repoGetByID (r : RepoState) (id : String) : Except RepoErr Task :=
  if r.healthy then
    match findTask r.tasks id with
    | none => .error .notFound
    | some t => .ok t
  else .error .failure

/-- Case-insensitive substring test: SQL `col ILIKE '%pat%'`. -/
def containsCI (s pat : String) : Bool :=
  decide ((pat.data.map Char.toLower) <:+: (s.data.map Char.toLower))

/-- The WHERE clause built by postgres TaskRepository.GetAll. Note that
`user_id = $1` is added unconditionally with `$1 = filters.UserID`, and the
due-date filter is the exact-day equality `due_date::date = $n::date`. -/
def matchesFilters (f : TaskFilters) (t : Task) : Bool :=
  (t.userID == f.userID)
  && (f.status == "" || t.status == f.status)
  && (f.priority == "" || t.priority == f.priority)
  && (match f.dueDate with
      | none => true
      | some d => dayOf t.dueDate == dayOf d)
  && (f.search == "" || containsCI t.title f.search || containsCI t.description f.search)

/-- ORDER BY due_date ASC, priority DESC, created_at DESC. The priority
column is a SQL varchar, so DESC on it is descending string order. -/
def taskLE (a b : Task) : Bool :=
  if a.dueDate ≠ b.dueDate then decide (a.dueDate < b.dueDate)
  else if a.priority ≠ b.priority then decide (b.priority < a.priority)
  else decide (b.createdAt ≤ a.createdAt)

def insertLE (x : Task) : List Task → List Task
  | [] => [x]
  | y :: ys => if taskLE x y then x :: y :: ys else y :: insertLE x ys

/-- Stable insertion sort realising the ORDER BY of GetAll. -/
def sortTasks : List Task → List Task
  | [] => []
  | x :: xs => insertLE x (sortTasks xs)

/-- postgres TaskRepository.GetAll. -/
def repoGetAll (r : RepoState) (f : TaskFilters) : Except RepoErr (List Task) :=
  if r.healthy then .ok (sortTasks (r.tasks.filter (matchesFilters f)))
  else .error .failure

/-- postgres TaskRepository.Create: plain INSERT; a duplicate primary key
makes the INSERT fail with a pq error (`failure`). -/
def repoCreate (r : RepoState) (t : Task) : Except RepoErr RepoState :=
  if r.healthy then
    if (findTask r.tasks t.id).isSome then .error .failure
    else .ok { r with tasks := r.tasks ++ [t] }
  else .error .failure

/-- postgres TaskRepository.Update: UPDATE ... WHERE id = $7 AND user_id = $8;
zero rows affected yields the error "task not found or not owned by user". -/
def repoUpdate (r : RepoState) (t : Task) : Except RepoErr RepoState :=
  if r.healthy then
    if r.tasks.any (fun u => u.id == t.id && u.userID == t.userID) then
      .ok { r with tasks := r.tasks.map (fun u => if u.id == t.id && u.userID == t.userID then t else u) }
    else .error .notFound
  else .error .failure

/-- postgres TaskRepository.Delete: DELETE ... WHERE id = $1 (no owner in
the WHERE clause); zero rows affected yields "task not found". -/
def repoDelete (r : RepoState) (id : String) : Except RepoErr RepoState :=
  if r.healthy then
    if r.tasks.any (fun u => u.id == id) then
      .ok { r with tasks := r.tasks.filter (fun u => !(u.id == id)) }
    else .error .notFound
  else .error .failure

/-- internal/cache/redis.go: the analytics cache, keyed by
`analytics:<userID>:<period>` (we key entries by the pair directly). The
health flags model an unreachable Redis on read and on write. TTL (6h) is
recorded via `cachedAt` on entries; no claim depends on expiry. -/
structure CacheState where
  entries : List (String × String × CachedAnalytics)
  readHealthy : Bool
  writeHealthy : Bool

def cacheLookup (c : CacheState) (userID period : String) : Option CachedAnalytics :=
  (c.entries.find? (fun e => e.1 == userID && e.2.1 == period)).map (fun e => e.2.2)

/-- Outcome of RedisCache.GetUserAnalytics: (entry, nil) on a hit,
(nil, nil) on redis.Nil (a miss), (nil, err) on any other error. -/
inductive CacheReadResult
  | hit (entry : CachedAnalytics)
  | miss
  | failed

def cacheGetUserAnalytics (c : CacheState) (userID period : String) : CacheReadResult :=
  if c.readHealthy then
    match cacheLookup c userID period with
    | some entry => .hit entry
    | none => .miss
  else .failed

/-- RedisCache.SetUserAnalytics: SET on the key, overwriting any previous
entry for (userID, period); fails when Redis is unreachable. -/
def cacheSetUserAnalytics (c : CacheState) (entry : CachedAnalytics) : Except Unit CacheState :=
  if c.writeHealthy then
    .ok { c with entries :=
      (entry.userID, entry.period, entry)
        :: c.entries.filter (fun e => !(e.1 == entry.userID && e.2.1 == entry.period)) }
  else .error ()

/-- The state a TaskServiceImpl operates on: its repository and its cache. -/
structure SysState where
  repo : RepoState
  cache : CacheState

/-- Service-level errors as the handler distinguishes them: ErrTaskNotFound,
ErrInvalidTaskData, ErrAccessDenied, and `internal` for every other error
the service passes through (the handler maps those to HTTP 500). -/
inductive ServiceErr
  | taskNotFound
  | invalidTaskData
  | accessDenied
  | internal
  deriving Repr, DecidableEq

/-- Whether a fallible call returned without error (Go err == nil). -/
def isOkE {ε α : Type} : Except ε α → Bool
  | .ok _ => true
  | .error _ => false

/-- TaskServiceImpl.Create: validates the title, fills default status,
priority and due date (tomorrow), then inserts. -/
def serviceCreate (st : SysState) (task : Task) (now : Time) : Except ServiceErr (Task × SysState) :=
  if task.title == "" then .error .invalidTaskData
  else
    let task := if task.status == "" then { task with status := StatusPending } else task
    let task := if task.priority == "" then { task with priority := PriorityMedium } else task
    let task := if task.dueDate == 0 then { task with dueDate := now + secondsPerDay } else task
    match repoCreate st.repo task with
    | .error _ => .error .internal
    | .ok r => .ok (task, { st with repo := r })

/-- TaskServiceImpl.GetByID: NOTE the code maps EVERY repository error to
ErrTaskNotFound before checking ownership. -/
def serviceGetByID (st : SysState) (id userID : String) : Except ServiceErr Task :=
  match repoGetByID st.repo id with
  | .error _ => .error .taskNotFound
  | .ok task =>
    if task.userID ≠ userID then .error .accessDenied
    else .ok task

/-- TaskServiceImpl.GetAll: delegates to the repository, ignoring its own
userID argument entirely. -/
def serviceGetAll (st : SysState) (_userID : String) (f : TaskFilters) : Except ServiceErr (List Task) :=
  match repoGetAll st.repo f with
  | .error _ => .error .internal
  | .ok ts => .ok ts

/-- The field-merge step of TaskServiceImpl.Update (lines 133-162): each
request field is copied onto the stored task under the condition the code
tests. Description is guarded by `!=` against the stored value, which makes
the copy unconditional in effect. Setting status to done assigns
CompletedAt only when it is nil or the zero time. -/
def applyPatch (existing patch : Task) (now : Time) : Task :=
  let e1 := if patch.title != "" then { existing with title := patch.title } else existing
  let e2 := if patch.description != e1.description then { e1 with description := patch.description } else e1
  let e3 :=
    if patch.status != "" then
      let es := { e2 with status := patch.status }
      if patch.status == StatusDone && (es.completedAt == none || es.completedAt == some 0) then
        { es with completedAt := some now }
      else es
    else e2
  let e4 := if patch.priority != "" then { e3 with priority := patch.priority } else e3
  let e5 := if patch.dueDate != 0 then { e4 with dueDate := patch.dueDate } else e4
  { e5 with updatedAt := now }

/-- TaskServiceImpl.Update: resolve, guard ownership, merge fields, write. -/
def serviceUpdate (st : SysState) (id userID : String) (patch : Task) (now : Time) :
    Except ServiceErr (Task × SysState) :=
  match repoGetByID st.repo id with
  | .error _ => .error .taskNotFound
  | .ok existing =>
    if existing.userID ≠ userID then .error .accessDenied
    else
      let updated := applyPatch existing patch now
      match repoUpdate st.repo updated with
      | .error _ => .error .internal
      | .ok r => .ok (updated, { st with repo := r })

/-- TaskServiceImpl.Delete: re-uses GetByID (resolution plus ownership
guard), re-checks ownership, then deletes by id. -/
def serviceDelete (st : SysState) (taskID userID : String) : Except ServiceErr SysState :=
  match serviceGetByID st taskID userID with
  | .error e => .error e
  | .ok task =>
    if task.userID ≠ userID then .error .accessDenied
    else
      match repoDelete st.repo taskID with
      | .error _ => .error .internal
      | .ok r => .ok { st with repo := r }

/-- Duration between two timestamps in hours: Go
`completedAt.Sub(createdAt).Hours()`, modelled exactly in the rationals. -/
def hoursBetween (a b : Time) : Rat := ((b - a : Int) : Rat) / (secondsPerHour : Rat)

/-- The loop accumulator of TaskServiceImpl.GetUserAnalytics: local counters
plus the two count maps being built. -/
structure AnalyticsAcc where
  statusCount : String → Nat
  priorityCount : String → Nat
  completedTasks : Nat
  onTimeTasks : Nat
  overdueTasks : Nat
  totalCompletionTime : Rat

/-- Increment of a Go counter map at a key, as a function update. -/
def bump (f : String → Nat) (k : String) : String → Nat :=
  fun s => if s = k then f s + 1 else f s

def initialAcc : AnalyticsAcc :=
  { statusCount := fun _ => 0
    priorityCount := fun _ => 0
    completedTasks := 0
    onTimeTasks := 0
    overdueTasks := 0
    totalCompletionTime := 0 }

/-- First block of the loop body: statusCount and priorityCount increments. -/
def stepCounts (acc : AnalyticsAcc) (t : Task) : AnalyticsAcc :=
  { acc with
    statusCount := bump acc.statusCount t.status
    priorityCount := bump acc.priorityCount t.priority }

/-- Second block: done tasks with a non-nil CompletedAt contribute to
completedTasks, totalCompletionTime and (when completed strictly before the
due date) onTimeTasks. -/
def stepCompleted (acc : AnalyticsAcc) (t : Task) : AnalyticsAcc :=
  match t.completedAt with
  | some c =>
    if t.status = StatusDone then
      { acc with
        completedTasks := acc.completedTasks + 1
        totalCompletionTime := acc.totalCompletionTime + hoursBetween t.createdAt c
        onTimeTasks := acc.onTimeTasks + (if c < t.dueDate then 1 else 0) }
    else acc
  | none => acc

/-- Third block: a non-done task whose due date lies strictly in the past
(`time.Now().After(dueDate)`) counts as overdue. -/
def stepOverdue (now : Time) (acc : AnalyticsAcc) (t : Task) : AnalyticsAcc :=
  if t.status ≠ StatusDone ∧ t.dueDate < now then
    { acc with overdueTasks := acc.overdueTasks + 1 }
  else acc

def stepTask (now : Time) (acc : AnalyticsAcc) (t : Task) : AnalyticsAcc :=
  stepOverdue now (stepCompleted (stepCounts acc t) t) t

/-- The aggregation loop of TaskServiceImpl.GetUserAnalytics plus the two
final divisions. The on-time rate is onTime/completed TIMES 100. -/
def computeAnalytics (tasks : List Task) (period : String) (now : Time) : Analytics :=
  let acc := tasks.foldl (stepTask now) initialAcc
  { statusCount := acc.statusCount
    priorityCount := acc.priorityCount
    avgCompletionTime :=
      if acc.completedTasks > 0 then acc.totalCompletionTime / (acc.completedTasks : Rat) else 0
    onTimeCompletionRate :=
      if acc.completedTasks > 0 then
        ((acc.onTimeTasks : Rat) / (acc.completedTasks : Rat)) * 100
      else 0
    overdueTasks := acc.overdueTasks
    period := period
    generatedAt := now }

/-- The filters GetUserAnalytics queries the store with: UserID only. -/
def analyticsFilters (userID : String) : TaskFilters :=
  { status := "", priority := "", dueDate := none, userID := userID, search := "" }

/-- The compute branch of TaskServiceImpl.GetUserAnalytics: query the store
(hard error on failure), aggregate, then try to cache the snapshot; a cache
write failure is logged and the snapshot is still returned. -/
def getUserAnalyticsCompute (st : SysState) (userID period : String) (now : Time) :
    Except Unit Analytics × SysState :=
  match repoGetAll st.repo (analyticsFilters userID) with
  | .error _ => (.error (), st)
  | .ok tasks =>
    let analytics := computeAnalytics tasks period now
    match cacheSetUserAnalytics st.cache
        { userID := userID, period := period, analytics := analytics, cachedAt := now } with
    | .ok c => (.ok analytics, { st with cache := c })
    | .error _ => (.ok analytics, st)

/-- TaskServiceImpl.GetUserAnalytics: cache first; a hit returns the cached
snapshot unmodified; a miss or a cache read error falls through to the
compute branch. TaskServiceImpl.GetAnalytics is an alias of this. -/
def getUserAnalytics (st : SysState) (userID period : String) (now : Time) :
    Except Unit Analytics × SysState :=
  match cacheGetUserAnalytics st.cache userID period with
  | .hit cached => (.ok cached.analytics, st)
  | .miss => getUserAnalyticsCompute st userID period now
  | .failed => getUserAnalyticsCompute st userID period now

/-- The per-task normalisation of TaskServiceImpl.Import: owner and id are
overwritten with the requesting user and a freshly generated uuid, the
created/updated stamps with now, and defaults are filled. -/
def importNormalize (userID id : String) (now : Time) (t : Task) : Task :=
  let t1 := { t with userID := userID, id := id, createdAt := now, updatedAt := now }
  let t2 := if t1.status == "" then { t1 with status := StatusPending } else t1
  let t3 := if t2.priority == "" then { t2 with priority := PriorityMedium } else t2
  if t3.dueDate == 0 then { t3 with dueDate := now + secondsPerDay } else t3

/-- TaskServiceImpl.Import / ImportTasks. Each call of uuid.New() is
modelled as consuming the next element of the id supply `ids`; uuid.New
never fails, so a task list longer than the supplied ids has no
counterpart in the code and is mapped to an error. The first failing
repository insert aborts the loop with its error. -/
def importTasks (st : SysState) (userID : String) (now : Time) :
    List Task → List String → Except ServiceErr SysState
  | [], _ => .ok st
  | t :: ts, id :: ids =>
    match repoCreate st.repo (importNormalize userID id now t) with
    | .error _ => .error .internal
    | .ok r => importTasks { st with repo := r } userID now ts ids
  | _ :: _, [] => .error .internal

/-- TaskServiceImpl.GetUserTasks: delegates to GetAll, which ignores the
userID argument and queries the repository with the filters alone. -/
def serviceGetUserTasks (st : SysState) (userID : String) (f : TaskFilters) :
    Except ServiceErr (List Task) :=
  serviceGetAll st userID f

/-- TaskServiceImpl.GetActiveUsers: repo.GetAll with the zero filters, then
the distinct owner ids (a Go map collects them; iteration order of that map
is unspecified, so only membership in the result is meaningful). -/
def serviceGetActiveUsers (st : SysState) : Except ServiceErr (List String) :=
  match repoGetAll st.repo emptyFilters with
  | .error _ => .error .internal
  | .ok tasks => .ok ((tasks.map Task.userID).eraseDups)

/-- One iteration of BackgroundWorker.cleanupExpiredTasks: query tasks with
the DueDate filter set to now minus 7 days (and the zero UserID ""), then
delete each fetched task by (id, owner); per-task delete failures are
skipped. -/
def cleanupExpiredTasks (st : SysState) (now : Time) : Except ServiceErr SysState :=
  let expiredDate := now - 7 * secondsPerDay
  match serviceGetAll st "" { emptyFilters with dueDate := some expiredDate } with
  | .error e => .error e
  | .ok tasks =>
    .ok (tasks.foldl (fun acc t =>
      match serviceDelete acc t.id t.userID with
      | .ok st2 => st2
      | .error _ => acc) st)

def workerPeriods : List String := ["day", "week", "month"]

/-- The per-(user, period) body of BackgroundWorker.generateAnalytics:
obtain analytics through the service GetAnalytics (the cache-consulting
GetUserAnalytics), then store them in the cache; failures of either step
are logged and skipped. -/
def refreshOne (now : Time) (userID : String) (st : SysState) (period : String) : SysState :=
  match getUserAnalytics st userID period now with
  | (.error _, st2) => st2
  | (.ok analytics, st2) =>
    match cacheSetUserAnalytics st2.cache
        { userID := userID, period := period, analytics := analytics, cachedAt := now } with
    | .ok c => { st2 with cache := c }
    | .error _ => st2

/-- One iteration of BackgroundWorker.generateAnalytics: the active-user
list, then for each user and each of day/week/month the refresh body. -/
def generateAnalyticsOnce (st : SysState) (now : Time) : Except ServiceErr SysState :=
  match serviceGetActiveUsers st with
  | .error e => .error e
  | .ok users =>
    .ok (users.foldl (fun acc u => workerPeriods.foldl (refreshOne now u) acc) st)

/-- internal/handler/task.go GetTask: the HTTP status the handler answers
with, given an authenticated user (ErrTaskNotFound maps to 404,
ErrAccessDenied to 403, anything else to 500). -/
def handlerGetTaskStatus (st : SysState) (userID taskID : String) : Nat :=
  if taskID = "" then 400
  else
    match serviceGetByID st taskID userID with
    | .ok _ => 200
    | .error .taskNotFound => 404
    | .error .accessDenied => 403
    | .error _ => 500

/-! Concrete fixtures used by counterexamples and witnesses. -/

def healthyCache : CacheState := { entries := [], readHealthy := true, writeHealthy := true }

def emptyPatch : Task :=
  { id := "", title := "", description := "", status := "", priority := "", userID := ""
    dueDate := 0, createdAt := 0, updatedAt := 0, completedAt := none }

def exTask : Task :=
  { id := "t1", title := "Title", description := "keep me", status := "pending"
    priority := "low", userID := "u1", dueDate := 100, createdAt := 1, updatedAt := 1
    completedAt := none }

def exC1St : SysState :=
  { repo := { tasks := [exTask], healthy := true }, cache := healthyCache }

def exC2OldTask : Task :=
  { id := "old", title := "Old", description := "", status := "pending", priority := "low"
    userID := "u1", dueDate := 90 * 86400 + 3600, createdAt := 1, updatedAt := 1
    completedAt := none }

def exC2RecentTask : Task :=
  { id := "recent", title := "Recent", description := "", status := "pending", priority := "low"
    userID := "u1", dueDate := 97 * 86400 + 3600, createdAt := 1, updatedAt := 1
    completedAt := none }

def exC2St : SysState :=
  { repo := { tasks := [exC2OldTask, exC2RecentTask], healthy := true }, cache := healthyCache }

def exC2Now : Time := 100 * 86400 + 43200

def exC8St : SysState :=
  { repo := { tasks := [exTask], healthy := false }, cache := healthyCache }

def exC3St : SysState :=
  { repo := { tasks := [exTask], healthy := true }, cache := healthyCache }

/-- A patch that only sets status to done. -/
def donePatch : Task := { emptyPatch with status := "done" }

/-- A task that already carries a completed timestamp. -/
def exDoneTask : Task := { exTask with status := "done", completedAt := some 7 }

/-- Done, completed at hour 1, due at hour 2: completed on time. -/
def exC4Done1 : Task :=
  { id := "a", title := "A", description := "", status := "done", priority := "low"
    userID := "u1", dueDate := 7200, createdAt := 0, updatedAt := 0, completedAt := some 3600 }

/-- Done, completed at hour 2, due at hour 1: completed late. -/
def exC4Done2 : Task :=
  { id := "b", title := "B", description := "", status := "done", priority := "low"
    userID := "u1", dueDate := 3600, createdAt := 0, updatedAt := 0, completedAt := some 7200 }

/-- Predicate of the claims on analytics: a done task carrying completion
data. -/
def isDoneWithCompletion (t : Task) : Bool :=
  t.status == StatusDone && t.completedAt.isSome

def doneWithCompletionCount (tasks : List Task) : Nat :=
  tasks.countP isDoneWithCompletion

/-- A done task with completion data that was completed strictly before its
due date. -/
def isOnTimeDone (t : Task) : Bool :=
  isDoneWithCompletion t &&
    (match t.completedAt with
     | some c => decide (c < t.dueDate)
     | none => false)

def onTimeDoneCount (tasks : List Task) : Nat :=
  tasks.countP isOnTimeDone

def exC7St : SysState :=
  { repo := { tasks := [exTask], healthy := true }
    cache := { entries := [], readHealthy := false, writeHealthy := false } }

def exC7BadSt : SysState :=
  { repo := { tasks := [exTask], healthy := false }
    cache := { entries := [], readHealthy := true, writeHealthy := true } }

/-- An import payload that tries to dictate its own id and owner. -/
def exC9Payload : Task :=
  { id := "t1", title := "Planted", description := "", status := "", priority := ""
    userID := "attacker", dueDate := 0, createdAt := 0, updatedAt := 0, completedAt := none }

def exC9St : SysState :=
  { repo := { tasks := [exTask], healthy := true }, cache := healthyCache }

def exC5St : SysState :=
  { repo := { tasks := [exTask], healthy := true }, cache := healthyCache }

def exC10Filters : TaskFilters :=
  { status := "", priority := "", dueDate := none, userID := "u1", search := "" }

/-- The tasks an import actually inserts: the payload normalised against
the fresh-id supply. -/
def importedTasks (userID : String) (now : Time) (ids : List String) (tasks : List Task) : List Task :=
  List.zipWith (fun i t => importNormalize userID i now t) ids tasks

/-- Claim C1. One iteration of the background analytics refresh on a store
holding a single task owned by user u1, with a healthy store and a healthy,
empty cache. The iteration leaves the whole state untouched: GetActiveUsers
queries the repository through a WHERE clause that unconditionally pins
user_id to the empty string, so no user that owns a task is ever returned,
and no cache entry for (u1, period) is ever recomputed or written. (Even
for a user the loop did process, the snapshot would come from the
cache-consulting GetUserAnalytics rather than from a forced fresh
computation.) -/
theorem C1_refresh_iteration_writes_no_entry_for_active_user :
    generateAnalyticsOnce exC1St 500000 = .ok exC1St ∧
    exC1St.repo.tasks.map Task.userID = ["u1"] ∧
    cacheLookup exC1St.cache "u1" "day" = none ∧
    cacheLookup exC1St.cache "u1" "week" = none ∧
    cacheLookup exC1St.cache "u1" "month" = none :=
  ⟨rfl, rfl, rfl, rfl, rfl⟩

/-- Claim C2. The expiry sweep run at day 100 over a store holding a task
due 10 days ago (and one due 3 days ago), both owned by user u1. The task
due 10 days ago has a due date before now minus 7 days, yet the sweep
deletes nothing: the fetch goes through the repository WHERE clause that
pins user_id to the empty string and compares due dates by exact-day
equality instead of "precedes", so the state comes back unchanged. -/
theorem C2_sweep_retains_task_due_ten_days_ago :
    exC2OldTask.dueDate < exC2Now - 7 * secondsPerDay ∧
    exC2OldTask ∈ exC2St.repo.tasks ∧
    cleanupExpiredTasks exC2St exC2Now = .ok exC2St := by
  refine ⟨by decide, ?_, rfl⟩
  simp [exC2St]

/-- Claim C8. A single-task read against an unreachable store (every
repository query fails with a non-ErrNoRows error): the handler answers
404, not the generic 500, because TaskServiceImpl.GetByID maps every
repository error to ErrTaskNotFound. -/
theorem C8_store_failure_on_read_yields_404_not_500 :
    handlerGetTaskStatus exC8St "u1" "t1" = 404 ∧
    handlerGetTaskStatus exC8St "u1" "t1" ≠ 500 :=
  ⟨rfl, by decide⟩

/-- The merge step never changes the task identity fields. -/
theorem applyPatch_id (e p : Task) (n : Time) : (applyPatch e p n).id = e.id := by
  simp only [applyPatch]
  split_ifs <;> rfl

theorem applyPatch_userID (e p : Task) (n : Time) : (applyPatch e p n).userID = e.userID := by
  simp only [applyPatch]
  split_ifs <;> rfl

theorem applyPatch_createdAt (e p : Task) (n : Time) : (applyPatch e p n).createdAt = e.createdAt := by
  simp only [applyPatch]
  split_ifs <;> rfl

set_option maxHeartbeats 1000000 in
theorem applyPatch_title (e p : Task) (n : Time) :
    (applyPatch e p n).title = if p.title != "" then p.title else e.title := by
  simp only [applyPatch]
  split_ifs <;> simp_all

set_option maxHeartbeats 1000000 in
theorem applyPatch_description (e p : Task) (n : Time) :
    (applyPatch e p n).description = p.description := by
  simp only [applyPatch]
  split_ifs <;> simp_all

set_option maxHeartbeats 1000000 in
theorem applyPatch_status (e p : Task) (n : Time) :
    (applyPatch e p n).status = if p.status != "" then p.status else e.status := by
  simp only [applyPatch]
  split_ifs <;> simp_all

set_option maxHeartbeats 1000000 in
theorem applyPatch_priority (e p : Task) (n : Time) :
    (applyPatch e p n).priority = if p.priority != "" then p.priority else e.priority := by
  simp only [applyPatch]
  split_ifs <;> simp_all

set_option maxHeartbeats 1000000 in
theorem applyPatch_dueDate (e p : Task) (n : Time) :
    (applyPatch e p n).dueDate = if p.dueDate != 0 then p.dueDate else e.dueDate := by
  simp only [applyPatch]
  split_ifs <;> simp_all

set_option maxHeartbeats 1000000 in
theorem applyPatch_completedAt (e p : Task) (n : Time) :
    (applyPatch e p n).completedAt =
      if p.status != "" && (p.status == StatusDone && (e.completedAt == none || e.completedAt == some 0)) then
        some n
      else e.completedAt := by
  simp only [applyPatch]
  split_ifs <;> simp_all

/-- Claim C3, counterexample. An update request that lists no field at all
(every field empty or zero) against a stored task whose description is
"keep me": the round-trip wipes the description, because the code guards
the description copy with inequality against the stored value instead of
non-emptiness. -/
theorem C3_counterexample_empty_patch_clears_description :
    exTask.description = "keep me" ∧
    (match serviceUpdate exC3St "t1" "u1" emptyPatch 7 with
     | .ok (t, _) => t.description
     | .error _ => "error") = "" :=
  ⟨rfl, rfl⟩

/-- Claim C3, amended. Partial-update semantics hold for title, status,
priority and due date: empty or zero request fields leave the stored value
in place and non-empty ones overwrite it. The description is the
exception: the stored description is always replaced by the request
description, so an empty request description clears it. Identity fields
survive untouched. -/
theorem C3_partial_update_except_description (existing patch : Task) (now : Time) :
    (patch.title = "" → (applyPatch existing patch now).title = existing.title) ∧
    (patch.title ≠ "" → (applyPatch existing patch now).title = patch.title) ∧
    (patch.status = "" → (applyPatch existing patch now).status = existing.status ∧
      (applyPatch existing patch now).completedAt = existing.completedAt) ∧
    (patch.status ≠ "" → (applyPatch existing patch now).status = patch.status) ∧
    (patch.priority = "" → (applyPatch existing patch now).priority = existing.priority) ∧
    (patch.priority ≠ "" → (applyPatch existing patch now).priority = patch.priority) ∧
    (patch.dueDate = 0 → (applyPatch existing patch now).dueDate = existing.dueDate) ∧
    (patch.dueDate ≠ 0 → (applyPatch existing patch now).dueDate = patch.dueDate) ∧
    (applyPatch existing patch now).description = patch.description := by
  refine ⟨?_, ?_, ?_, ?_, ?_, ?_, ?_, ?_, ?_⟩ <;>
    simp only [applyPatch_title, applyPatch_status, applyPatch_completedAt,
      applyPatch_priority, applyPatch_dueDate, applyPatch_description] <;>
    intro h <;> simp [h]

/-- Claim C3 witness: the amended behaviour at the all-empty patch. -/
theorem C3_partial_update_witness :
    (applyPatch exTask emptyPatch 7).title = exTask.title ∧
    (applyPatch exTask emptyPatch 7).status = exTask.status ∧
    (applyPatch exTask emptyPatch 7).priority = exTask.priority ∧
    (applyPatch exTask emptyPatch 7).dueDate = exTask.dueDate ∧
    (applyPatch exTask emptyPatch 7).description = emptyPatch.description := by
  have h := C3_partial_update_except_description exTask emptyPatch 7
  exact ⟨h.1 rfl, (h.2.2.1 rfl).1, h.2.2.2.2.1 rfl, h.2.2.2.2.2.2.1 rfl, h.2.2.2.2.2.2.2.2⟩

/-- Claim C6. When an update request sets status to done, the completed
timestamp is assigned only if it is unset (nil or the zero time); a task
whose completed timestamp is already a non-zero value keeps it unchanged
through any further done update, so the timestamp is assigned exactly
once. -/
theorem C6_done_assigns_completed_timestamp_once (t p : Task) (now : Time)
    (hp : p.status = "done") :
    ((t.completedAt = none ∨ t.completedAt = some 0) →
      (applyPatch t p now).completedAt = some now) ∧
    (∀ c : Time, c ≠ 0 → t.completedAt = some c →
      (applyPatch t p now).completedAt = some c) := by
  constructor
  · intro hc
    rcases hc with hc | hc <;> simp [applyPatch_completedAt, hp, hc, StatusDone]
  · intro c hc0 hc
    simp [applyPatch_completedAt, hp, hc, StatusDone, hc0]

/-- Claim C6 witness: a first done update stamps now; a second done update
on a task already completed at time 7 keeps 7. -/
theorem C6_done_assigns_completed_timestamp_once_witness :
    (applyPatch exTask donePatch 7).completedAt = some 7 ∧
    (applyPatch exDoneTask donePatch 9).completedAt = some 7 :=
  ⟨(C6_done_assigns_completed_timestamp_once exTask donePatch 7 rfl).1 (Or.inl rfl),
   (C6_done_assigns_completed_timestamp_once exDoneTask donePatch 9 rfl).2 7 (by decide) rfl⟩

/-- One loop step adds one to completedTasks exactly on a done task with
completion data. -/
theorem stepTask_completedTasks (now : Time) (acc : AnalyticsAcc) (t : Task) :
    (stepTask now acc t).completedTasks =
      acc.completedTasks + (if isDoneWithCompletion t then 1 else 0) := by
  obtain ⟨i, ti, d, s, pr, u, dd, ca, ua, co⟩ := t
  simp only [stepTask, stepOverdue, stepCompleted, stepCounts, isDoneWithCompletion]
  cases co <;> split_ifs <;> simp_all

/-- One loop step adds one to onTimeTasks exactly on a done task completed
strictly before its due date. -/
theorem stepTask_onTimeTasks (now : Time) (acc : AnalyticsAcc) (t : Task) :
    (stepTask now acc t).onTimeTasks =
      acc.onTimeTasks + (if isOnTimeDone t then 1 else 0) := by
  obtain ⟨i, ti, d, s, pr, u, dd, ca, ua, co⟩ := t
  simp only [stepTask, stepOverdue, stepCompleted, stepCounts, isOnTimeDone, isDoneWithCompletion]
  cases co <;> split_ifs <;> simp_all

/-- The aggregation loop counts done tasks with completion data. -/
theorem foldl_stepTask_completedTasks (now : Time) (tasks : List Task) :
    ∀ acc : AnalyticsAcc,
      (tasks.foldl (stepTask now) acc).completedTasks =
        acc.completedTasks + doneWithCompletionCount tasks := by
  induction tasks with
  | nil => intro acc; simp [doneWithCompletionCount]
  | cons t ts ih =>
    intro acc
    simp only [List.foldl_cons, ih, stepTask_completedTasks, doneWithCompletionCount,
      List.countP_cons]
    cases h : isDoneWithCompletion t <;> simp [h, doneWithCompletionCount]
    omega

/-- The aggregation loop counts on-time done tasks. -/
theorem foldl_stepTask_onTimeTasks (now : Time) (tasks : List Task) :
    ∀ acc : AnalyticsAcc,
      (tasks.foldl (stepTask now) acc).onTimeTasks =
        acc.onTimeTasks + onTimeDoneCount tasks := by
  induction tasks with
  | nil => intro acc; simp [onTimeDoneCount]
  | cons t ts ih =>
    intro acc
    simp only [List.foldl_cons, ih, stepTask_onTimeTasks, onTimeDoneCount, List.countP_cons]
    cases h : isOnTimeDone t <;> simp [h, onTimeDoneCount]
    omega

/-- Claim C4, counterexample. Two done tasks, one completed before its due
date and one after: the computed on-time rate is 50, not the quotient 1/2
of on-time count by done-with-completion count that the claim states. -/
theorem C4_counterexample_rate_is_not_plain_quotient :
    (computeAnalytics [exC4Done1, exC4Done2] "week" 10000).onTimeCompletionRate = 50 ∧
    (onTimeDoneCount [exC4Done1, exC4Done2] : Rat) /
        (doneWithCompletionCount [exC4Done1, exC4Done2] : Rat) = 1 / 2 ∧
    (computeAnalytics [exC4Done1, exC4Done2] "week" 10000).onTimeCompletionRate ≠
      (onTimeDoneCount [exC4Done1, exC4Done2] : Rat) /
        (doneWithCompletionCount [exC4Done1, exC4Done2] : Rat) := by
  refine ⟨?_, ?_, ?_⟩ <;>
    norm_num [computeAnalytics, stepTask, stepOverdue, stepCompleted, stepCounts, initialAcc,
      hoursBetween, onTimeDoneCount, doneWithCompletionCount, isOnTimeDone,
      isDoneWithCompletion, exC4Done1, exC4Done2, StatusDone, List.countP_cons]

/-- Claim C4, amended. In every computed snapshot the on-time completion
rate equals the quotient of on-time count by the number of done tasks with
completion data MULTIPLIED BY 100 (a percentage), and 0 when there is no
done task with completion data. -/
theorem C4_on_time_rate_is_percentage (tasks : List Task) (period : String) (now : Time) :
    (computeAnalytics tasks period now).onTimeCompletionRate =
      if doneWithCompletionCount tasks = 0 then 0
      else ((onTimeDoneCount tasks : Rat) / (doneWithCompletionCount tasks : Rat)) * 100 := by
  simp only [computeAnalytics, foldl_stepTask_completedTasks, foldl_stepTask_onTimeTasks,
    initialAcc, Nat.zero_add]
  rcases Nat.eq_zero_or_pos (doneWithCompletionCount tasks) with h | h
  · simp [h]
  · simp [h, Nat.pos_iff_ne_zero.mp h]

/-- Claim C7. Analytics retrieval degrades on cache trouble and is strict
on store trouble: an unreachable cache (read error) or a plain miss both
fall through to the compute branch; the compute branch, on a healthy
store, returns the snapshot computed from the filtered task table no
matter whether the cache write succeeds; an unreachable store makes the
compute branch propagate an error with no snapshot. -/
theorem C7_cache_degrades_store_is_strict (st : SysState) (u per : String) (now : Time) :
    (st.cache.readHealthy = false →
      getUserAnalytics st u per now = getUserAnalyticsCompute st u per now) ∧
    (cacheLookup st.cache u per = none →
      getUserAnalytics st u per now = getUserAnalyticsCompute st u per now) ∧
    (st.repo.healthy = true →
      (getUserAnalyticsCompute st u per now).1 =
        .ok (computeAnalytics (sortTasks (st.repo.tasks.filter (matchesFilters (analyticsFilters u))))
              per now)) ∧
    (st.repo.healthy = false →
      getUserAnalyticsCompute st u per now = (.error (), st)) := by
  refine ⟨?_, ?_, ?_, ?_⟩
  · intro h
    simp [getUserAnalytics, cacheGetUserAnalytics, h]
  · intro h
    cases hr : st.cache.readHealthy <;>
      simp [getUserAnalytics, cacheGetUserAnalytics, hr, h]
  · intro h
    cases hw : st.cache.writeHealthy <;>
      simp [getUserAnalyticsCompute, repoGetAll, h, cacheSetUserAnalytics, hw]
  · intro h
    simp [getUserAnalyticsCompute, repoGetAll, h]

/-- Claim C7 witness: a state with an unreachable cache (read and write)
over a healthy one-task store, and a state with an unreachable store. -/
theorem C7_cache_degrades_store_is_strict_witness :
    getUserAnalytics exC7St "u1" "week" 0 = getUserAnalyticsCompute exC7St "u1" "week" 0 ∧
    (getUserAnalyticsCompute exC7St "u1" "week" 0).1 =
      .ok (computeAnalytics
            (sortTasks (exC7St.repo.tasks.filter (matchesFilters (analyticsFilters "u1")))) "week" 0) ∧
    getUserAnalyticsCompute exC7BadSt "u1" "week" 0 = (.error (), exC7BadSt) :=
  ⟨(C7_cache_degrades_store_is_strict exC7St "u1" "week" 0).1 rfl,
   (C7_cache_degrades_store_is_strict exC7St "u1" "week" 0).2.2.1 rfl,
   (C7_cache_degrades_store_is_strict exC7BadSt "u1" "week" 0).2.2.2 rfl⟩

theorem mem_insertLE (x y : Task) (l : List Task) : y ∈ insertLE x l ↔ y = x ∨ y ∈ l := by
  induction l with
  | nil => simp [insertLE]
  | cons z zs ih =>
    simp only [insertLE]
    split_ifs <;> simp [ih]
    tauto

theorem mem_sortTasks (y : Task) (l : List Task) : y ∈ sortTasks l ↔ y ∈ l := by
  induction l with
  | nil => simp [sortTasks]
  | cons z zs ih => simp [sortTasks, mem_insertLE, ih]

/-- Claim C10. GetUserTasks ignores its userID argument: its result is the
repository query for the filters alone, so the rows are restricted to the
requesting user exactly when filters.UserID carries that user (the
repository WHERE clause pins user_id to filters.UserID). -/
theorem C10_get_user_tasks_ignores_userID (st : SysState) (u v : String) (f : TaskFilters) :
    serviceGetUserTasks st u f = serviceGetUserTasks st v f ∧
    serviceGetUserTasks st u f = serviceGetAll st u f ∧
    (st.repo.healthy = true →
      serviceGetUserTasks st u f = .ok (sortTasks (st.repo.tasks.filter (matchesFilters f)))) ∧
    (∀ ts, serviceGetUserTasks st u f = .ok ts → ∀ t ∈ ts, t.userID = f.userID) := by
  refine ⟨rfl, rfl, ?_, ?_⟩
  · intro h
    simp [serviceGetUserTasks, serviceGetAll, repoGetAll, h]
  · intro ts hts t htm
    cases hh : st.repo.healthy with
    | false => simp [serviceGetUserTasks, serviceGetAll, repoGetAll, hh] at hts
    | true =>
      simp only [serviceGetUserTasks, serviceGetAll, repoGetAll, hh, if_pos] at hts
      cases hts
      rw [mem_sortTasks, List.mem_filter] at htm
      have hm := htm.2
      simp only [matchesFilters, Bool.and_eq_true, beq_iff_eq] at hm
      exact hm.1.1.1.1

/-- Claim C10 witness: the same one-task store queried as two different
users with filters naming u1. -/
theorem C10_get_user_tasks_ignores_userID_witness :
    serviceGetUserTasks exC5St "alice" exC10Filters = serviceGetUserTasks exC5St "bob" exC10Filters ∧
    serviceGetUserTasks exC5St "alice" exC10Filters =
      .ok (sortTasks (exC5St.repo.tasks.filter (matchesFilters exC10Filters))) ∧
    exTask.userID = exC10Filters.userID := by
  have h := C10_get_user_tasks_ignores_userID exC5St "alice" "bob" exC10Filters
  exact ⟨h.1, h.2.2.1 rfl, h.2.2.2 _ (h.2.2.1 rfl) exTask (by decide)⟩

/-- Claim C5. Over a healthy store, every read, update and delete of a task
resolves the id first: a missing id yields the not-found outcome whatever
the requester is; an existing task owned by someone else yields the
distinct access-denied outcome; an existing task owned by the requester
makes the operation proceed (the read returns the task, update and delete
reach the repository and succeed). -/
theorem C5_ownership_guard_outcomes (st : SysState) (id u : String) (patch : Task) (now : Time)
    (hh : st.repo.healthy = true) :
    (findTask st.repo.tasks id = none →
      serviceGetByID st id u = .error .taskNotFound ∧
      serviceUpdate st id u patch now = .error .taskNotFound ∧
      serviceDelete st id u = .error .taskNotFound) ∧
    (∀ t, findTask st.repo.tasks id = some t → t.userID ≠ u →
      serviceGetByID st id u = .error .accessDenied ∧
      serviceUpdate st id u patch now = .error .accessDenied ∧
      serviceDelete st id u = .error .accessDenied) ∧
    (∀ t, findTask st.repo.tasks id = some t → t.userID = u →
      serviceGetByID st id u = .ok t ∧
      isOkE (serviceUpdate st id u patch now) = true ∧
      isOkE (serviceDelete st id u) = true) := by
  refine ⟨?_, ?_, ?_⟩
  · intro h
    simp [serviceGetByID, serviceUpdate, serviceDelete, repoGetByID, hh, h]
  · intro t ht hne
    simp [serviceGetByID, serviceUpdate, serviceDelete, repoGetByID, hh, ht, hne]
  · intro t ht heq
    have ht2 : st.repo.tasks.find? (fun w => w.id == id) = some t := ht
    have hmem : t ∈ st.repo.tasks := List.mem_of_find?_eq_some ht2
    have hid : (t.id == id) = true := by simpa using List.find?_some ht2
    refine ⟨?_, ?_, ?_⟩
    · simp [serviceGetByID, repoGetByID, hh, ht, heq]
    · have hany : st.repo.tasks.any
          (fun w => w.id == (applyPatch t patch now).id &&
            w.userID == (applyPatch t patch now).userID) = true := by
        rw [List.any_eq_true]
        exact ⟨t, hmem, by simp [applyPatch_id, applyPatch_userID]⟩
      simp [isOkE, serviceUpdate, repoGetByID, hh, ht, heq, repoUpdate, hany]
    · have hany2 : st.repo.tasks.any (fun w => w.id == id) = true := by
        rw [List.any_eq_true]
        exact ⟨t, hmem, hid⟩
      simp [isOkE, serviceDelete, serviceGetByID, repoGetByID, hh, ht, heq, repoDelete, hany2]

/-- Claim C5 witness: a store holding only task t1 owned by u1; a missing
id is not found, a foreign requester is denied, the owner reads the task. -/
theorem C5_ownership_guard_outcomes_witness :
    exC5St.repo.healthy = true ∧
    serviceGetByID exC5St "missing" "u2" = .error .taskNotFound ∧
    serviceGetByID exC5St "t1" "u2" = .error .accessDenied ∧
    serviceGetByID exC5St "t1" "u1" = .ok exTask :=
  ⟨rfl,
   ((C5_ownership_guard_outcomes exC5St "missing" "u2" emptyPatch 0 rfl).1 rfl).1,
   ((C5_ownership_guard_outcomes exC5St "t1" "u2" emptyPatch 0 rfl).2.1 exTask rfl (by decide)).1,
   ((C5_ownership_guard_outcomes exC5St "t1" "u1" emptyPatch 0 rfl).2.2 exTask rfl rfl).1⟩

theorem importNormalize_id (u i : String) (n : Time) (t : Task) :
    (importNormalize u i n t).id = i := by
  simp only [importNormalize]
  split_ifs <;> rfl

theorem importNormalize_userID (u i : String) (n : Time) (t : Task) :
    (importNormalize u i n t).userID = u := by
  simp only [importNormalize]
  split_ifs <;> rfl

theorem findTask_eq_none_of_fresh (tasks : List Task) (i : String)
    (h : ∀ t ∈ tasks, t.id ≠ i) : findTask tasks i = none := by
  rw [findTask, List.find?_eq_none]
  intro t ht
  simpa using h t ht

/-- Claim C9. Import with a supply of fresh ids (pairwise distinct and
absent from the store, as uuid.New provides): every imported task is
inserted with the requesting user as its owner and its id drawn from the
fresh supply, the payload ids and user ids notwithstanding; the previously
stored tasks all survive unchanged, so no existing task is overwritten and
no task owned by another user is created. -/
theorem C9_import_fresh_ids_and_requesting_owner (userID : String) (now : Time) :
    ∀ (tasks : List Task) (ids : List String) (st : SysState),
      st.repo.healthy = true →
      ids.length = tasks.length →
      ids.Nodup →
      (∀ i ∈ ids, ∀ t ∈ st.repo.tasks, t.id ≠ i) →
      importTasks st userID now tasks ids =
        .ok { st with repo := { st.repo with
          tasks := st.repo.tasks ++ importedTasks userID now ids tasks } } ∧
      ∀ t2 ∈ importedTasks userID now ids tasks, t2.userID = userID ∧ t2.id ∈ ids := by
  intro tasks
  induction tasks with
  | nil =>
    intro ids st hh hlen _ _
    have hids : ids = [] := List.eq_nil_of_length_eq_zero (by simpa using hlen)
    subst hids
    simp [importTasks, importedTasks]
  | cons t ts ih =>
    intro ids st hh hlen hnd hfresh
    cases ids with
    | nil => simp at hlen
    | cons i is =>
      have hnormid : (importNormalize userID i now t).id = i := importNormalize_id userID i now t
      have hfind : findTask st.repo.tasks (importNormalize userID i now t).id = none := by
        rw [hnormid]
        exact findTask_eq_none_of_fresh _ _ (hfresh i (by simp))
      have hcreate : repoCreate st.repo (importNormalize userID i now t) =
          .ok { st.repo with tasks := st.repo.tasks ++ [importNormalize userID i now t] } := by
        simp [repoCreate, hh, hfind]
      have hinotis : i ∉ is := (List.nodup_cons.mp hnd).1
      have hstep := ih is
        { st with repo := { st.repo with tasks := st.repo.tasks ++ [importNormalize userID i now t] } }
        hh (by simpa using hlen) (List.nodup_cons.mp hnd).2
        (by
          intro j hj t2 ht2
          rcases List.mem_append.mp ht2 with h2 | h2
          · exact hfresh j (List.mem_cons_of_mem _ hj) t2 h2
          · have ht2n : t2 = importNormalize userID i now t := by simpa using h2
            subst ht2n
            rw [hnormid]
            intro hij
            exact hinotis (hij ▸ hj))
      constructor
      · show importTasks st userID now (t :: ts) (i :: is) = _
        simp only [importTasks, hcreate]
        rw [hstep.1]
        simp [importedTasks, List.append_assoc]
      · intro t2 ht2
        rcases (by simpa [importedTasks] using ht2 :
            t2 = importNormalize userID i now t ∨
            t2 ∈ importedTasks userID now is ts) with h2 | h2
        · subst h2
          exact ⟨importNormalize_userID userID i now t, by simp [hnormid]⟩
        · obtain ⟨hu, hi⟩ := hstep.2 t2 h2
          exact ⟨hu, List.mem_cons_of_mem _ hi⟩

/-- Claim C9 witness: a payload task that names its own id t1 (colliding
with the stored task) and a foreign owner, imported by u1 under the fresh
id fresh-1: the store keeps the old task and gains exactly the normalised
copy owned by u1 with id fresh-1. -/
theorem C9_import_fresh_ids_and_requesting_owner_witness :
    exC9St.repo.healthy = true ∧
    importTasks exC9St "u1" 10 [exC9Payload] ["fresh-1"] =
      .ok { exC9St with repo := { exC9St.repo with tasks :=
        exC9St.repo.tasks ++ [importNormalize "u1" "fresh-1" 10 exC9Payload] } } ∧
    (importNormalize "u1" "fresh-1" 10 exC9Payload).userID = "u1" :=
  ⟨rfl,
   (C9_import_fresh_ids_and_requesting_owner "u1" 10 [exC9Payload] ["fresh-1"] exC9St rfl rfl
     (by decide) (by decide)).1,
   ((C9_import_fresh_ids_and_requesting_owner "u1" 10 [exC9Payload] ["fresh-1"] exC9St rfl rfl
     (by decide) (by decide)).2 (importNormalize "u1" "fresh-1" 10 exC9Payload)
     (by simp [importedTasks])).1⟩

end TaskMange
